import Mathlib

/-!
Verification of the `nocc` subtitle cleaner (`src/nocc/nocc.py`).

The development shallowly embeds the text-cleaning engine: the fixed removal
and replacement rule sets (regular expressions over single-character classes
with optional, lazy-star, greedy-star/plus and bounded-repeat quantifiers),
the per-entry cleaning pipeline `clean_text`, the line joiner `_join_short`,
and a pure model of `process_subtitle_file` whose file-system and console
effects are recorded as an event list.

Python specifics that the embedding mirrors:
  * `re.sub(pat, repl, s)` scans left to right, replaces each leftmost
    match (backtracking priority: lazy quantifiers try the empty case
    first, greedy ones try to consume first) and resumes after the match;
  * `^` without `re.MULTILINE` anchors only at the start of the string,
    `$` matches at the end or just before a terminating newline;
  * `str.strip()` removes leading and trailing whitespace; `\s` and
    `str.strip` are modelled over the ASCII whitespace characters.
-/

namespace Nocc

/-- ASCII whitespace, as matched by Python's `\s` and stripped by `str.strip`. -/
def pySpace (c : Char) : Bool :=
  c = ' ' || c = '\t' || c = '\n' || c = '\r' || c = '\x0b' || c = '\x0c'

/-- The character class `[0-9A-Z]`. -/
def isUpperDigit (c : Char) : Bool :=
  (decide ('0' ≤ c) && decide (c ≤ '9')) || (decide ('A' ≤ c) && decide (c ≤ 'Z'))

/-- The character class `[0-9A-Z\s\-\#\.]` used by the speaker-label rules. -/
def personClass (c : Char) : Bool :=
  isUpperDigit c || pySpace c || c = '-' || c = '#' || c = '.'

/-- Python's `\w` over ASCII: `[a-zA-Z0-9_]`. -/
def wordClass (c : Char) : Bool :=
  (decide ('a' ≤ c) && decide (c ≤ 'z')) || (decide ('A' ≤ c) && decide (c ≤ 'Z'))
    || (decide ('0' ≤ c) && decide (c ≤ '9')) || c = '_'

/-- The regex metacharacter `.`: any character except a newline. -/
def dotClass (c : Char) : Bool := c ≠ '\n'

/-- A literal character in a pattern. -/
def lit (a : Char) : Char → Bool := fun c => c == a

/--
One item of a regular expression.  Every pattern in the source is a plain
sequence of such items; each quantifier in the source applies to a
single-character class, so quantified items carry the class directly.
-/
inductive Item where
  /-- a single character of the class `p` -/
  | ch (p : Char → Bool)
  /-- a capturing group `(\w)` holding one character of class `p` -/
  | grp (p : Char → Bool)
  /-- `p?` (greedy option) -/
  | opt (p : Char → Bool)
  /-- `p*?` (lazy star) -/
  | starL (p : Char → Bool)
  /-- `p*` (greedy star) -/
  | starG (p : Char → Bool)
  /-- `p+` (greedy plus) -/
  | plusG (p : Char → Bool)
  /-- `p{lo,hi}` (greedy bounded repeat) -/
  | rep (lo hi : Nat) (p : Char → Bool)
  /-- `^` without MULTILINE: start of the subject string -/
  | caret
  /-- `$`: end of string, or just before a terminating newline -/
  | dollar

/--
Backtracking matcher.  `tryMatchF fuel items s atStart` attempts to match the
item sequence at the current position (`s` is the remaining input, `atStart`
is true only at offset 0 of the subject string) and returns the number of
characters consumed by the first match in Python's backtracking order
together with the character captured by a `grp` item, if any.

Each recursive call decreases the pair `(s.length, items.length)`
lexicographically and `items.length` never grows, so a recursion depth of
`(s.length + 1) * (items.length + 1)` can never be exceeded; the `fuel`
argument only makes this bound explicit so that the recursion is structural.
-/
def tryMatchF : Nat → List Item → List Char → Bool → Option (Nat × Option Char)
  | 0, _, _, _ => none
  | _ + 1, [], _, _ => some (0, none)
  | fuel + 1, .ch p :: rest, s, _ =>
    match s with
    | [] => none
    | c :: s' =>
      if p c then (tryMatchF fuel rest s' false).map (fun r => (r.1 + 1, r.2)) else none
  | fuel + 1, .grp p :: rest, s, _ =>
    match s with
    | [] => none
    | c :: s' =>
      if p c then (tryMatchF fuel rest s' false).map (fun r => (r.1 + 1, some c)) else none
  | fuel + 1, .opt p :: rest, s, atStart =>
    (match s with
     | [] => none
     | c :: s' =>
       if p c then (tryMatchF fuel rest s' false).map (fun r => (r.1 + 1, r.2)) else none)
    <|> tryMatchF fuel rest s atStart
  | fuel + 1, .starL p :: rest, s, atStart =>
    tryMatchF fuel rest s atStart
    <|> (match s with
         | [] => none
         | c :: s' =>
           if p c then
             (tryMatchF fuel (.starL p :: rest) s' false).map (fun r => (r.1 + 1, r.2))
           else none)
  | fuel + 1, .starG p :: rest, s, atStart =>
    (match s with
     | [] => none
     | c :: s' =>
       if p c then
         (tryMatchF fuel (.starG p :: rest) s' false).map (fun r => (r.1 + 1, r.2))
       else none)
    <|> tryMatchF fuel rest s atStart
  | fuel + 1, .plusG p :: rest, s, _ =>
    match s with
    | [] => none
    | c :: s' =>
      if p c then
        (tryMatchF fuel (.starG p :: rest) s' false).map (fun r => (r.1 + 1, r.2))
      else none
  | fuel + 1, .rep lo hi p :: rest, s, atStart =>
    if hi = 0 then tryMatchF fuel rest s atStart
    else
      (match s with
       | [] => none
       | c :: s' =>
         if p c then
           (tryMatchF fuel (.rep (lo - 1) (hi - 1) p :: rest) s' false).map
             (fun r => (r.1 + 1, r.2))
         else none)
      <|> (if lo = 0 then tryMatchF fuel rest s atStart else none)
  | fuel + 1, .caret :: rest, s, atStart =>
    if atStart then tryMatchF fuel rest s atStart else none
  | fuel + 1, .dollar :: rest, s, atStart =>
    if s = [] ∨ s = ['\n'] then tryMatchF fuel rest s atStart else none

/-- Matcher entry point with the depth bound made explicit. -/
def tryMatch (pat : List Item) (s : List Char) (atStart : Bool) : Option (Nat × Option Char) :=
  tryMatchF ((s.length + 1) * (pat.length + 1) + 1) pat s atStart

/--
Leftmost match search: returns `(start offset, match length, captured char)`
of the first match at or after the current position, scanning left to right
as Python's `re.sub` does.
-/
def findFrom (pat : List Item) : List Char → Bool → Option (Nat × Nat × Option Char)
  | s, atStart =>
    match tryMatch pat s atStart with
    | some (n, g) => some (0, n, g)
    | none =>
      match s with
      | [] => none
      | _ :: s' => (findFrom pat s' false).map (fun r => (r.1 + 1, r.2))

/--
`re.sub` over a character list: replace every leftmost match by
`repl` applied to the captured group, resuming after each match (advancing
one character after an empty match, as Python does).  Every pattern in the
source matches at least one character, so one unit of fuel per input
character suffices.
-/
def subAllF : Nat → List Item → (Option Char → List Char) → List Char → Bool → List Char
  | 0, _, _, s, _ => s
  | fuel + 1, pat, repl, s, atStart =>
    match findFrom pat s atStart with
    | none => s
    | some (st, n, g) =>
      if st + n = 0 then
        match s with
        | [] => repl g
        | c :: s' => repl g ++ c :: subAllF fuel pat repl s' false
      else
        s.take st ++ repl g ++ subAllF fuel pat repl (s.drop (st + n)) false

/-- `re.sub(pat, '', s)` on a whole string (so `^` anchors at its start). -/
def wholeSub (pat : List Item) (s : String) : String :=
  String.mk (subAllF (s.data.length + 1) pat (fun _ => []) s.data true)

/-- Replacement template application: the templates in the source are a
literal prefix followed by `\1`, the single captured character. -/
def applyTemplate : List Char → Option Char → List Char
  | [], _ => []
  | '\\' :: '1' :: rest, g =>
    (match g with | some c => [c] | none => []) ++ applyTemplate rest g
  | c :: rest, g => c :: applyTemplate rest g

/-- `re.sub(pat, template, s)` for the replacement rules. -/
def replSub (pat : List Item) (tmpl : String) (s : String) : String :=
  String.mk (subAllF (s.data.length + 1) pat (applyTemplate tmpl.data) s.data true)

/-- `str.split('\n')` over a character list: splitting an empty string
yields one empty chunk, like Python's `''.split('\n') == ['']`. -/
def splitNl : List Char → List (List Char)
  | [] => [[]]
  | c :: rest =>
    let r := splitNl rest
    if c = '\n' then [] :: r
    else (c :: r.headD []) :: r.tail

/-- `s.split('\n')`. -/
def pySplit (s : String) : List String :=
  (splitNl s.data).map String.mk

/-- `sep.join(chunks)` for a one-character separator. -/
def intercalateChar (sep : Char) : List (List Char) → List Char
  | [] => []
  | [x] => x
  | x :: xs => x ++ sep :: intercalateChar sep xs

/-- `sep.join(lines)` for a one-character separator, over strings. -/
def pyJoin (sep : Char) (ls : List String) : String :=
  String.mk (intercalateChar sep (ls.map String.data))

/-- `len(s)` (number of code points). -/
def pyLen (s : String) : Nat := s.data.length

/-- `s.endswith('?')`. -/
def endsWithQmark (s : String) : Bool :=
  match s.data.getLast? with
  | some c => c = '?'
  | none => false

/-- The per-line pass: `'\n'.join(pat.sub('', line) for line in s.split('\n'))`. -/
def perLineSub (pat : List Item) (s : String) : String :=
  pyJoin '\n' ((pySplit s).map (wholeSub pat))

/-- `s.replace('\n', ' ')`. -/
def joinNl (s : String) : String :=
  String.mk (s.data.map (fun c => if c = '\n' then ' ' else c))

/-- `str.strip()` over the ASCII whitespace class. -/
def pyStripList (s : List Char) : List Char :=
  ((s.dropWhile pySpace).reverse.dropWhile pySpace).reverse

/-- `s.strip()`. -/
def pyStrip (s : String) : String := String.mk (pyStripList s.data)

/-- `c in s` for a one-character needle. -/
def containsChar (c : Char) (s : String) : Bool := s.data.contains c

/-- Configuration constants (class `Config` in the source). -/
structure Config where
  MAX_LINE_LENGTH : Nat := 30
  MAX_JOINED_LENGTH : Nat := 40
  SONG_CHARACTER : Char := Char.ofNat 0x266a

/-- The default configuration: thresholds 30 and 40, song marker U+266A. -/
def defaultConfig : Config := {}

/-- Removal pattern `</?font.*?>` ("font styling"). -/
def fontPat : List Item :=
  [.ch (lit '<'), .opt (lit '/'), .ch (lit 'f'), .ch (lit 'o'), .ch (lit 'n'), .ch (lit 't'),
   .starL dotClass, .ch (lit '>')]

/-- Removal pattern `^[0-9A-Z\s\-\#\.]+:\n-\s` ("multiline person"). -/
def multilinePersonPat : List Item :=
  [.caret, .plusG personClass, .ch (lit ':'), .ch (lit '\n'), .ch (lit '-'), .ch pySpace]

/-- Removal pattern `^[0-9A-Z\s\-\#\.]*?\s?:\s` ("person"). -/
def personPat : List Item :=
  [.caret, .starL personClass, .opt pySpace, .ch (lit ':'), .ch pySpace]

/-- Removal pattern `[0-9A-Z]{3,10}\s?:\s` ("person middle"). -/
def personMiddlePat : List Item :=
  [.rep 3 10 isUpperDigit, .opt pySpace, .ch (lit ':'), .ch pySpace]

/-- Removal pattern `\(.*?\)` ("effect"). -/
def effectParenPat : List Item :=
  [.ch (lit '('), .starL dotClass, .ch (lit ')')]

/-- Removal pattern `\[.*?\]` ("effect", bracketed variant). -/
def effectBracketPat : List Item :=
  [.ch (lit '['), .starL dotClass, .ch (lit ']')]

/-- Removal pattern `^\s?-\s?$` ("empty dash"). -/
def emptyDashPat : List Item :=
  [.caret, .opt pySpace, .ch (lit '-'), .opt pySpace, .dollar]

/-- Removal pattern `\s\s` ("double spaces"). -/
def doubleSpacesPat : List Item :=
  [.ch pySpace, .ch pySpace]

/-- The ordered removal rule list `REMOVE_RE`. -/
def REMOVE_RE : List (String × List Item) :=
  [("font styling", fontPat),
   ("multiline person", multilinePersonPat),
   ("person", personPat),
   ("person middle", personMiddlePat),
   ("effect", effectParenPat),
   ("effect", effectBracketPat),
   ("empty dash", emptyDashPat),
   ("double spaces", doubleSpacesPat)]

/-- The ordered replacement rule list `REPLACE_RE`:
`^-(\w)`, `\.(\w)`, `,(\w)`, `\?(\w)`, `\!(\w)`, each inserting a space. -/
def REPLACE_RE : List (String × List Item × String) :=
  [("dash missing space", [.caret, .ch (lit '-'), .grp wordClass], "- \\1"),
   ("dot missing space", [.ch (lit '.'), .grp wordClass], ". \\1"),
   ("comma missing space", [.ch (lit ','), .grp wordClass], ", \\1"),
   ("? missing space", [.ch (lit '?'), .grp wordClass], "? \\1"),
   ("! missing space", [.ch (lit '!'), .grp wordClass], "! \\1")]

/--
Result of the removal-rule loop of `clean_text`: either the loop ran to the
end with a working text and accumulated rule names, or some rule's emptiness
check fired, at which point the source immediately returns
`('', ['multiline with <rule name>'])`.
-/
inductive RemovePhase where
  | consumed (rule_name : String)
  | done (text : String) (applied : List String)
deriving DecidableEq

/--
The removal-rule loop of `clean_text`: for each rule, apply the pattern to
the whole text, then to each line separately; if one more application to the
line-joined text would strip to empty, the entry is consumed by this rule;
otherwise strip and record the rule name when the text changed.
-/
def runRemoveRules : List (String × List Item) → String → List String → RemovePhase
  | [], text, applied => .done text applied
  | (rule_name, pat) :: rest, text, applied =>
    let t1 := wholeSub pat text
    let t2 := perLineSub pat t1
    if pyStrip (wholeSub pat (joinNl t2)) = "" then
      .consumed rule_name
    else
      let t3 := pyStrip t2
      runRemoveRules rest t3 (if text = t3 then applied else applied ++ [rule_name])

/-- The replacement-rule loop of `clean_text`: direct substitution, strip,
record the name when the text changed. -/
def runReplaceRules : List (String × List Item × String) → String → List String →
    String × List String
  | [], text, applied => (text, applied)
  | (rule_name, pat, repl) :: rest, text, applied =>
    let t2 := pyStrip (replSub pat repl text)
    runReplaceRules rest t2 (if text = t2 then applied else applied ++ [rule_name])

/-- `SubtitleCleaner._join_short`: merge a short multi-line text into one
line.  `lines` is never empty, so `headD` reads `lines[0]`;
`max((len(line) for line in lines), default=0)` is a fold of `Nat.max`. -/
def join_short (cfg : Config) (text : String) : Bool × String :=
  if (pySplit text).length ≤ 1 ∨ '-' ∈ text.data then (false, text)
  else if endsWithQmark ((pySplit text).headD "") then (false, text)
  else if 0 < ((pySplit text).map pyLen).foldl Nat.max 0
      ∧ ((pySplit text).map pyLen).foldl Nat.max 0 < cfg.MAX_LINE_LENGTH
      ∧ pyLen (pyJoin ' ' (pySplit text)) < cfg.MAX_JOINED_LENGTH
  then (true, pyJoin ' ' (pySplit text))
  else (false, text)

/-- The tail of `clean_text` after the removal loop: the early return on a
consumed entry, or the replacement loop followed by the line joiner. -/
def finishClean (cfg : Config) : RemovePhase → String × List String
  | .consumed rule_name => ("", ["multiline with " ++ rule_name])
  | .done t applied =>
    ((join_short cfg (runReplaceRules REPLACE_RE t applied).1).2,
     if (join_short cfg (runReplaceRules REPLACE_RE t applied).1).1
     then (runReplaceRules REPLACE_RE t applied).2 ++ ["joined lines"]
     else (runReplaceRules REPLACE_RE t applied).2)

/-- `SubtitleCleaner.clean_text` with the default rule lists. -/
def clean_text (cfg : Config) (text : String) : String × List String :=
  if text = "" then ("", [])
  else if containsChar cfg.SONG_CHARACTER text then ("", ["song"])
  else finishClean cfg (runRemoveRules REMOVE_RE text [])

/-- A parsed subtitle entry (pysrt `SubRipItem`): start and end timestamps
(kept abstract as numbers; pysrt names the second field `end`, a Lean
keyword) and a mutable text block. -/
structure SubRipItem where
  start : Nat
  stop : Nat
  text : String
deriving DecidableEq

/-- Observable effects of `process_subtitle_file`: console events of the
output handler, and the file-system actions (the backup rename, modelled by
its source and destination names, and each save). -/
inductive Event where
  | showCleaning (original cleaned : String) (rules : List String)
  | showDeleted (text : String)
  | renamed (src dst : String)
  | saved (path : String)
  | success (msg : String)
deriving DecidableEq

/--
The per-entry loop of `process_subtitle_file` over `enumerate(subs)` from
`index`: clean each entry, mark empty results for deletion, track the
modified flag, always assign the cleaned text back, and emit the handler
events in order.  Returns
`(updated entries, delete indices in ascending order, modified, events)`.
-/
def processEntries : List SubRipItem → Nat →
    List SubRipItem × List Nat × Bool × List Event
  | [], _ => ([], [], false, [])
  | subtitle :: rest, index =>
    if (clean_text defaultConfig subtitle.text).1 = "" then
      ({ subtitle with text := (clean_text defaultConfig subtitle.text).1 }
         :: (processEntries rest (index + 1)).1,
       index :: (processEntries rest (index + 1)).2.1, true,
       .showDeleted subtitle.text :: (processEntries rest (index + 1)).2.2.2)
    else if (clean_text defaultConfig subtitle.text).1 ≠ subtitle.text then
      ({ subtitle with text := (clean_text defaultConfig subtitle.text).1 }
         :: (processEntries rest (index + 1)).1,
       (processEntries rest (index + 1)).2.1, true,
       .showCleaning subtitle.text (clean_text defaultConfig subtitle.text).1
           (clean_text defaultConfig subtitle.text).2
         :: (processEntries rest (index + 1)).2.2.2)
    else
      ({ subtitle with text := (clean_text defaultConfig subtitle.text).1 }
         :: (processEntries rest (index + 1)).1,
       (processEntries rest (index + 1)).2.1,
       (processEntries rest (index + 1)).2.2.1,
       (processEntries rest (index + 1)).2.2.2)

/-- Python's `del xs[i]`. -/
def delAt : List α → Nat → List α
  | [], _ => []
  | _ :: xs, 0 => xs
  | x :: xs, n + 1 => x :: delAt xs n

/-- `for index in reversed(delete_indices): del subs[index]`. -/
def deleteReversed (xs : List α) (idxs : List Nat) : List α :=
  idxs.reverse.foldl delAt xs

/--
Pure model of `process_subtitle_file`: takes the parsed document instead of
opening the file, and records saves, the backup rename (whose destination
prefixes the name with an underscore) and handler messages as events.
Returns `(final document, modified, events)`.
-/
def process_subtitle_file (filename : String) (output_path : Option String)
    (subs : List SubRipItem) : List SubRipItem × Bool × List Event :=
  match output_path with
  | some p =>
    if (processEntries subs 0).2.2.1 then
      (deleteReversed (processEntries subs 0).1 (processEntries subs 0).2.1,
       (processEntries subs 0).2.2.1,
       (processEntries subs 0).2.2.2 ++ [.saved p])
    else
      (deleteReversed (processEntries subs 0).1 (processEntries subs 0).2.1,
       (processEntries subs 0).2.2.1,
       (processEntries subs 0).2.2.2 ++ [.success ("Already clean file: " ++ filename)])
  | none =>
    if (processEntries subs 0).2.2.1 then
      (deleteReversed (processEntries subs 0).1 (processEntries subs 0).2.1,
       (processEntries subs 0).2.2.1,
       (processEntries subs 0).2.2.2
         ++ [.renamed filename ("_" ++ filename), .saved filename]
         ++ [.success ("Cleaned file: " ++ filename)])
    else
      (deleteReversed (processEntries subs 0).1 (processEntries subs 0).2.1,
       (processEntries subs 0).2.2.1,
       (processEntries subs 0).2.2.2
         ++ [.renamed filename ("_" ++ filename), .saved filename]
         ++ [.success ("Already clean file: " ++ filename)])

/-- The net per-entry effect of the batch pass: the cleaned text is written
back onto the entry, all other fields untouched. -/
def updateEntry (e : SubRipItem) : SubRipItem :=
  { e with text := (clean_text defaultConfig e.text).1 }

/-- A one-entry document that the cleaner leaves untouched. -/
def demoSubs : List SubRipItem :=
  [{ start := 0, stop := 1000, text := "Hello" }]

/-! ## Helper lemmas -/

lemma pyStripList_eq_rdrop (l : List Char) :
    pyStripList l = List.rdropWhile pySpace (l.dropWhile pySpace) := rfl

lemma pyStripList_idem (l : List Char) :
    pyStripList (pyStripList l) = pyStripList l := by
  rw [pyStripList_eq_rdrop, pyStripList_eq_rdrop]
  have h1 : List.dropWhile pySpace (List.rdropWhile pySpace (l.dropWhile pySpace))
      = List.rdropWhile pySpace (l.dropWhile pySpace) := by
    rw [List.dropWhile_eq_self_iff]
    intro hl
    have hpre : List.rdropWhile pySpace (l.dropWhile pySpace) <+: l.dropWhile pySpace :=
      List.rdropWhile_prefix _ _
    have hl2 : 0 < (l.dropWhile pySpace).length := lt_of_lt_of_le hl hpre.length_le
    have hget := hpre.getElem hl
    have hnot := List.dropWhile_get_zero_not pySpace l hl2
    simp only [List.get_eq_getElem] at hnot ⊢
    rw [hget]
    exact hnot
  rw [h1, List.rdropWhile_idempotent]

lemma pyStrip_idem (s : String) : pyStrip (pyStrip s) = pyStrip s :=
  congrArg String.mk (pyStripList_idem s.data)

/-- The removal loop only appends to the applied-rules accumulator, and when
it appends nothing the working text is returned unchanged. -/
lemma runRemoveRules_done_mono (rs : List (String × List Item)) (t : String)
    (acc : List String) :
    ∀ t2 acc2, runRemoveRules rs t acc = .done t2 acc2 →
      acc.length ≤ acc2.length ∧ (acc2.length ≤ acc.length → t2 = t ∧ acc2 = acc) := by
  induction rs generalizing t acc with
  | nil =>
    intro t2 acc2 h
    cases h
    exact ⟨le_rfl, fun _ => ⟨rfl, rfl⟩⟩
  | cons r rs ih =>
    intro t2 acc2 h
    obtain ⟨name, pat⟩ := r
    simp only [runRemoveRules] at h
    split at h
    · exact absurd h (by simp)
    · split at h
      · rename_i hteq
        obtain ⟨hle, heq⟩ := ih _ _ _ _ h
        exact ⟨hle, fun hl => ⟨(heq hl).1.trans hteq.symm, (heq hl).2⟩⟩
      · obtain ⟨hle, -⟩ := ih _ _ _ _ h
        simp only [List.length_append, List.length_singleton] at hle
        exact ⟨by omega, fun hl => absurd hl (by omega)⟩

/-- The replacement loop only appends to the accumulator, and when it
appends nothing the working text is returned unchanged. -/
lemma runReplaceRules_mono (rs : List (String × List Item × String)) (t : String)
    (acc : List String) :
    acc.length ≤ (runReplaceRules rs t acc).2.length
    ∧ ((runReplaceRules rs t acc).2.length ≤ acc.length →
        (runReplaceRules rs t acc).1 = t ∧ (runReplaceRules rs t acc).2 = acc) := by
  induction rs generalizing t acc with
  | nil => exact ⟨le_rfl, fun _ => ⟨rfl, rfl⟩⟩
  | cons r rs ih =>
    obtain ⟨name, pat, repl⟩ := r
    simp only [runReplaceRules]
    split
    · rename_i hteq
      obtain ⟨hle, heq⟩ := ih (pyStrip (replSub pat repl t)) acc
      exact ⟨hle, fun hl => ⟨(heq hl).1.trans hteq.symm, (heq hl).2⟩⟩
    · obtain ⟨hle, -⟩ := ih (pyStrip (replSub pat repl t)) (acc ++ [name])
      simp only [List.length_append, List.length_singleton] at hle
      exact ⟨by omega, fun hl => absurd hl (by omega)⟩

/-- Every no-join branch of `_join_short` returns the text unchanged. -/
lemma join_short_not_joined (cfg : Config) (t : String)
    (h : (join_short cfg t).1 = false) : (join_short cfg t).2 = t := by
  unfold join_short at h ⊢
  split_ifs at h ⊢ <;> simp_all

/-- If `clean_text` reports no applied rules, it returned its input. -/
lemma clean_text_untouched (cfg : Config) (t : String)
    (h : (clean_text cfg t).2 = []) : (clean_text cfg t).1 = t := by
  unfold clean_text at h ⊢
  by_cases h0 : t = ""
  · rw [if_pos h0]
    exact h0.symm
  · rw [if_neg h0] at h ⊢
    by_cases h1 : containsChar cfg.SONG_CHARACTER t = true
    · rw [if_pos h1] at h
      simp at h
    · rw [if_neg h1] at h ⊢
      cases hr : runRemoveRules REMOVE_RE t [] with
      | consumed name =>
        rw [hr] at h
        simp [finishClean] at h
      | done t1 acc1 =>
        rw [hr] at h
        simp only [finishClean] at h ⊢
        by_cases hj : (join_short cfg (runReplaceRules REPLACE_RE t1 acc1).1).1 = true
        · rw [if_pos hj] at h
          simp at h
        · rw [if_neg hj] at h
          obtain ⟨hle, heq⟩ := runReplaceRules_mono REPLACE_RE t1 acc1
          have hlen0 : (runReplaceRules REPLACE_RE t1 acc1).2.length = 0 := by
            rw [h]
            rfl
          have hr2 := heq (by omega)
          have hacc1 : acc1 = [] := List.length_eq_zero.mp (by omega)
          obtain ⟨-, hback⟩ := runRemoveRules_done_mono REMOVE_RE t [] t1 acc1 hr
          have ht1 : t1 = t := (hback (by rw [hacc1])).1
          simp only [Bool.not_eq_true] at hj
          have hjoin := join_short_not_joined cfg (runReplaceRules REPLACE_RE t1 acc1).1 hj
          rw [hjoin, hr2.1, ht1]

/-! ## Claims -/

/-- C8: if `clean_text` returns an empty applied-rules list then the
cleaned text equals the input unchanged. -/
theorem c8_empty_rules_untouched (text : String)
    (h : (clean_text defaultConfig text).2 = []) :
    (clean_text defaultConfig text).1 = text :=
  clean_text_untouched defaultConfig text h

/-- Witness for C8 at the untouched text `"Hello"`. -/
theorem c8_witness :
    (clean_text defaultConfig "Hello").2 = []
    ∧ (clean_text defaultConfig "Hello").1 = "Hello" :=
  ⟨by decide, c8_empty_rules_untouched "Hello" (by decide)⟩

/-- C3 (amended): cleaning is idempotent on every text that `clean_text`
leaves untouched (empty applied-rules list); it is not idempotent in
general, see the counterexample. -/
theorem c3_idempotent_on_untouched (text : String)
    (h : (clean_text defaultConfig text).2 = []) :
    (clean_text defaultConfig ((clean_text defaultConfig text).1)).1
      = (clean_text defaultConfig text).1 := by
  rw [clean_text_untouched defaultConfig text h]
  exact clean_text_untouched defaultConfig text h

/-- Witness for C3 (amended) at the untouched text `"Hello"`. -/
theorem c3_witness :
    (clean_text defaultConfig "Hello").2 = []
    ∧ (clean_text defaultConfig ((clean_text defaultConfig "Hello").1)).1
        = (clean_text defaultConfig "Hello").1 :=
  ⟨by decide, c3_idempotent_on_untouched "Hello" (by decide)⟩

/-- C3 counterexample: cleaning `"x\n(a\nb)"` joins the short lines into
`"x (a b)"`, and a second clean removes the now-single-line parenthesized
span, yielding `"x"`; so `clean` is not idempotent. -/
theorem c3_counterexample :
    (clean_text defaultConfig "x\n(a\nb)").1 = "x (a b)"
    ∧ (clean_text defaultConfig "x (a b)").1 = "x"
    ∧ (clean_text defaultConfig ((clean_text defaultConfig "x\n(a\nb)").1)).1
        ≠ (clean_text defaultConfig "x\n(a\nb)").1 := by decide

/-- C5 (amended): the `double spaces` rule removes the whole matched pair of
whitespace characters, so `"a  b"` becomes `"ab"`. -/
theorem c5_double_spaces_removed :
    clean_text defaultConfig "a  b" = ("ab", ["double spaces"]) := by decide

/-- C5 counterexample: `"a  b"` does not become `"a b"` as the claim
states; both characters of the pair are deleted. -/
theorem c5_counterexample :
    (clean_text defaultConfig "a  b").1 ≠ "a b" := by decide

/-- C6: any text containing the musical-note glyph U+266A is discarded
immediately with applied-rules exactly `["song"]`. -/
theorem c6_song (text : String)
    (h : containsChar defaultConfig.SONG_CHARACTER text = true) :
    clean_text defaultConfig text = ("", ["song"]) := by
  unfold clean_text
  have h0 : text ≠ "" := by
    intro he
    rw [he] at h
    exact absurd h (by decide)
  rw [if_neg h0, if_pos h]

/-- Witness for C6 at `"la ♪ la"`. -/
theorem c6_witness :
    containsChar defaultConfig.SONG_CHARACTER "la ♪ la" = true
    ∧ clean_text defaultConfig "la ♪ la" = ("", ["song"]) :=
  ⟨by decide, c6_song "la ♪ la" (by decide)⟩

/-- C2 (amended): when some removal rule's emptiness check triggers,
`clean_text` returns immediately: the cleaned text is empty and the
applied-rules list is exactly `["multiline with <rule name>"]` — names of
rules that fired earlier are discarded and the replacement phase is never
reached. -/
theorem c2_multiline_consumption (text rule_name : String)
    (h0 : text ≠ "")
    (h1 : containsChar defaultConfig.SONG_CHARACTER text = false)
    (h2 : runRemoveRules REMOVE_RE text [] = .consumed rule_name) :
    clean_text defaultConfig text = ("", ["multiline with " ++ rule_name]) := by
  unfold clean_text
  rw [if_neg h0, if_neg (by simp [h1]), h2]
  rfl

/-- Witness for C2 (amended): the font tags are stripped first, then the
parenthesized remainder triggers the `effect` rule's emptiness check. -/
theorem c2_witness :
    clean_text defaultConfig "<font>(a\nb)</font>"
      = ("", ["multiline with " ++ "effect"]) :=
  c2_multiline_consumption "<font>(a\nb)</font>" "effect" (by decide) (by decide) (by decide)

/-- C2 counterexample: on `"<font>(a\nb)</font>"` the `font styling` rule
fires before the `effect` rule's emptiness check triggers, yet the returned
applied-rules list is only `["multiline with effect"]`, not
`["font styling", "multiline with effect"]` as the claim predicts. -/
theorem c2_counterexample :
    wholeSub fontPat "<font>(a\nb)</font>" = "(a\nb)"
    ∧ (clean_text defaultConfig "<font>(a\nb)</font>").2 = ["multiline with effect"]
    ∧ (clean_text defaultConfig "<font>(a\nb)</font>").2
        ≠ ["font styling", "multiline with effect"] := by decide

/-- C10: a single-line text whose removal loop ends in the emptiness check
of some rule is returned empty and tagged `multiline with <rule name>`,
despite having only one line. -/
theorem c10_single_line_multiline_tag (text rule_name : String)
    (h0 : text ≠ "")
    (h1 : containsChar defaultConfig.SONG_CHARACTER text = false)
    (_hsingle : containsChar '\n' text = false)
    (h2 : runRemoveRules REMOVE_RE text [] = .consumed rule_name) :
    clean_text defaultConfig text = ("", ["multiline with " ++ rule_name]) := by
  unfold clean_text
  rw [if_neg h0, if_neg (by simp [h1]), h2]
  rfl

/-- Witness for C10 at the single-line text `"(laughing)"`, tagged
`multiline with effect` rather than plain `effect`. -/
theorem c10_witness :
    containsChar '\n' "(laughing)" = false
    ∧ clean_text defaultConfig "(laughing)" = ("", ["multiline with " ++ "effect"]) :=
  ⟨by decide,
    c10_single_line_multiline_tag "(laughing)" "effect" (by decide) (by decide)
      (by decide) (by decide)⟩

/-- C4 (amended): the line joiner joins exactly when the text has more than
one line, contains no dash, the first line does not end with `?`, the
maximum per-line length is strictly positive and strictly less than 30, and
the joined length is strictly less than 40; otherwise it returns the text
unchanged. -/
theorem c4_join_characterization (text : String) :
    join_short defaultConfig text =
      if 1 < (pySplit text).length
          ∧ '-' ∉ text.data
          ∧ ¬ endsWithQmark ((pySplit text).headD "")
          ∧ 0 < ((pySplit text).map pyLen).foldl Nat.max 0
          ∧ ((pySplit text).map pyLen).foldl Nat.max 0 < 30
          ∧ pyLen (pyJoin ' ' (pySplit text)) < 40
      then (true, pyJoin ' ' (pySplit text))
      else (false, text) := by
  unfold join_short
  have h30 : defaultConfig.MAX_LINE_LENGTH = 30 := rfl
  have h40 : defaultConfig.MAX_JOINED_LENGTH = 40 := rfl
  rw [h30, h40]
  by_cases h1 : (pySplit text).length ≤ 1 ∨ '-' ∈ text.data
  · rw [if_pos h1, if_neg]
    rintro ⟨ha, hb, -⟩
    rcases h1 with h1 | h1
    · omega
    · exact hb h1
  · rw [if_neg h1]
    push_neg at h1
    obtain ⟨ha, hb⟩ := h1
    by_cases h2 : endsWithQmark ((pySplit text).headD "") = true
    · rw [if_pos h2, if_neg]
      rintro ⟨-, -, hc, -⟩
      exact hc h2
    · rw [if_neg h2]
      by_cases h3 : 0 < ((pySplit text).map pyLen).foldl Nat.max 0
          ∧ ((pySplit text).map pyLen).foldl Nat.max 0 < 30
          ∧ pyLen (pyJoin ' ' (pySplit text)) < 40
      · rw [if_pos h3, if_pos ⟨by omega, hb, h2, h3.1, h3.2.1, h3.2.2⟩]
      · rw [if_neg h3, if_neg]
        rintro ⟨-, -, -, hc1, hc2, hc3⟩
        exact h3 ⟨hc1, hc2, hc3⟩

/-- C4 counterexample: `"\n"` satisfies every condition of the claim (two
lines, no dash, first line does not end with `?`, max line length 0 which
is less than 30, joined length 1 which is less than 40), yet `_join_short`
does not join, because the code additionally requires `0 < max_len`. -/
theorem c4_counterexample :
    1 < (pySplit "\n").length
    ∧ '-' ∉ ("\n" : String).data
    ∧ ¬ endsWithQmark ((pySplit "\n").headD "")
    ∧ ((pySplit "\n").map pyLen).foldl Nat.max 0 < 30
    ∧ pyLen (pyJoin ' ' (pySplit "\n")) < 40
    ∧ join_short defaultConfig "\n" = (false, "\n") := by decide

/-- One step of the removal loop in which the rule's substitutions leave
the text unchanged and the emptiness check does not fire: the loop strips
the text and records the rule name iff stripping changed it. -/
lemma runRemoveRules_step (name : String) (pat : List Item)
    (rest : List (String × List Item)) (t : String) (a : List String)
    (hw : wholeSub pat t = t) (hp : perLineSub pat t = t)
    (hc : pyStrip (wholeSub pat (joinNl t)) ≠ "") :
    runRemoveRules ((name, pat) :: rest) t a
      = runRemoveRules rest (pyStrip t) (if t = pyStrip t then a else a ++ [name]) := by
  simp only [runRemoveRules, hw, hp]
  rw [if_neg hc]

/-- The removal loop is the identity on an already-stripped text that no
rule's substitution changes and whose emptiness checks do not fire. -/
lemma runRemoveRules_noop (rs : List (String × List Item)) (u : String)
    (acc : List String) (hu : pyStrip u = u)
    (h : ∀ r ∈ rs, wholeSub r.2 u = u ∧ perLineSub r.2 u = u
      ∧ pyStrip (wholeSub r.2 (joinNl u)) ≠ "") :
    runRemoveRules rs u acc = .done u acc := by
  induction rs with
  | nil => rfl
  | cons r rs ih =>
    obtain ⟨name, pat⟩ := r
    obtain ⟨hw, hp, hc⟩ := h (name, pat) (List.mem_cons_self _ _)
    dsimp only at hw hp hc
    rw [runRemoveRules_step name pat rs u acc hw hp hc, hu, if_pos rfl]
    exact ih (fun r hr => h r (List.mem_cons_of_mem _ hr))

/-- The replacement loop is the identity on an already-stripped text that
no replacement rule's substitution changes. -/
lemma runReplaceRules_noop (rs : List (String × List Item × String)) (u : String)
    (acc : List String) (hu : pyStrip u = u)
    (h : ∀ r ∈ rs, replSub r.2.1 r.2.2 u = u) :
    runReplaceRules rs u acc = (u, acc) := by
  induction rs with
  | nil => rfl
  | cons r rs ih =>
    obtain ⟨name, pat, repl⟩ := r
    have h0 := h (name, pat, repl) (List.mem_cons_self _ _)
    dsimp only at h0
    simp only [runReplaceRules, h0, hu, if_pos rfl]
    exact ih (fun r hr => h r (List.mem_cons_of_mem _ hr))

/-- C9 (amended): on a nonempty text with outer whitespace that no removal
rule's substitution changes (on the text or its stripped form), on which no
removal rule's emptiness check fires (given that no rule matches, this
excludes exactly the entirely-whitespace texts), and that no replacement
rule or join changes, `clean_text` returns the trimmed text and attributes
the trim to the first removal rule, `font styling`. -/
theorem c9_trim_attribution (text : String)
    (h0 : text ≠ "")
    (h1 : containsChar defaultConfig.SONG_CHARACTER text = false)
    (hws : pyStrip text ≠ text)
    (hfirst : wholeSub fontPat text = text ∧ perLineSub fontPat text = text
      ∧ pyStrip (wholeSub fontPat (joinNl text)) ≠ "")
    (hrem : ∀ r ∈ REMOVE_RE, wholeSub r.2 (pyStrip text) = pyStrip text
      ∧ perLineSub r.2 (pyStrip text) = pyStrip text
      ∧ pyStrip (wholeSub r.2 (joinNl (pyStrip text))) ≠ "")
    (hrep : ∀ r ∈ REPLACE_RE, replSub r.2.1 r.2.2 (pyStrip text) = pyStrip text)
    (hjoin : (join_short defaultConfig (pyStrip text)).1 = false) :
    clean_text defaultConfig text = (pyStrip text, ["font styling"]) := by
  have hloop : runRemoveRules REMOVE_RE text [] = .done (pyStrip text) ["font styling"] := by
    rw [show REMOVE_RE = ("font styling", fontPat)
        :: [("multiline person", multilinePersonPat),
            ("person", personPat),
            ("person middle", personMiddlePat),
            ("effect", effectParenPat),
            ("effect", effectBracketPat),
            ("empty dash", emptyDashPat),
            ("double spaces", doubleSpacesPat)] from rfl]
    rw [runRemoveRules_step _ _ _ _ _ hfirst.1 hfirst.2.1 hfirst.2.2]
    rw [if_neg (fun he => hws he.symm)]
    exact runRemoveRules_noop _ _ _ (pyStrip_idem text)
      (fun r hr => hrem r (List.mem_cons_of_mem _ hr))
  unfold clean_text
  rw [if_neg h0, if_neg (by simp [h1]), hloop]
  simp only [finishClean]
  rw [runReplaceRules_noop REPLACE_RE (pyStrip text) ["font styling"]
    (pyStrip_idem text) hrep]
  have hj2 := join_short_not_joined defaultConfig (pyStrip text) hjoin
  simp [hjoin, hj2]

/-- Witness for C9 at `" hello "`: the result is the trimmed text with the
trim charged to the `font styling` rule. -/
theorem c9_witness :
    pyStrip " hello " = "hello"
    ∧ clean_text defaultConfig " hello " = (pyStrip " hello ", ["font styling"]) :=
  ⟨by decide,
    c9_trim_attribution " hello " (by decide) (by decide) (by decide) (by decide)
      (by decide) (by decide) (by decide)⟩

/-- C9 counterexample: the all-whitespace text `" "` satisfies the
original claim's antecedent — it is nonempty, it has leading and trailing
whitespace, and no removal or replacement rule's substitution changes it —
yet the first rule's emptiness check fires on it, so `clean_text` returns
`("", ["multiline with font styling"])`, not the trimmed text with
`["font styling"]` recorded. -/
theorem c9_counterexample :
    " " ≠ ""
    ∧ pyStrip " " ≠ " "
    ∧ (∀ r ∈ REMOVE_RE, wholeSub r.2 " " = " " ∧ perLineSub r.2 " " = " ")
    ∧ (∀ r ∈ REPLACE_RE, replSub r.2.1 r.2.2 " " = " ")
    ∧ clean_text defaultConfig " " = ("", ["multiline with font styling"])
    ∧ clean_text defaultConfig " " ≠ (pyStrip " ", ["font styling"]) := by decide

/-- The batch pass writes the cleaned text onto every entry, in order. -/
lemma processEntries_fst (l : List SubRipItem) (i : Nat) :
    (processEntries l i).1 = l.map updateEntry := by
  induction l generalizing i with
  | nil => rfl
  | cons e l ih =>
    simp only [processEntries, List.map_cons]
    split_ifs <;> simp [ih, updateEntry]

/-- Starting the enumeration at `i` shifts every recorded delete index by `i`. -/
lemma processEntries_dels_shift (l : List SubRipItem) (i : Nat) :
    (processEntries l i).2.1 = ((processEntries l 0).2.1).map (· + i) := by
  induction l generalizing i with
  | nil => simp [processEntries]
  | cons e l ih =>
    simp only [processEntries]
    split_ifs
    · simp only [ih (i + 1), ih 1, List.map_cons, List.map_map, Nat.zero_add]
      congr 1
      apply List.map_congr_left
      intro a _
      simp only [Function.comp_apply]
      omega
    · simp only [ih (i + 1), ih 1, List.map_map]
      apply List.map_congr_left
      intro a _
      simp only [Function.comp_apply]
      omega
    · simp only [ih (i + 1), ih 1, List.map_map]
      apply List.map_congr_left
      intro a _
      simp only [Function.comp_apply]
      omega

/-- Deleting only indices shifted past the head leaves the head in place. -/
lemma foldl_delAt_shift (js : List Nat) (x : α) (M : List α) :
    (js.map (· + 1)).foldl delAt (x :: M) = x :: js.foldl delAt M := by
  induction js generalizing M with
  | nil => rfl
  | cons j js ih =>
    simp only [List.map_cons, List.foldl_cons]
    rw [show delAt (x :: M) (j + 1) = x :: delAt M j from rfl]
    exact ih (delAt M j)

/-- Deleting the recorded indices in descending order removes exactly the
entries whose cleaned text is empty. -/
lemma delete_filter (l : List SubRipItem) :
    deleteReversed (l.map updateEntry) ((processEntries l 0).2.1)
      = (l.map updateEntry).filter (fun e => !(e.text == "")) := by
  induction l with
  | nil => rfl
  | cons e l ih =>
    have hdels : (processEntries (e :: l) 0).2.1
        = (if (clean_text defaultConfig e.text).1 = "" then
            0 :: ((processEntries l 0).2.1).map (· + 1)
          else ((processEntries l 0).2.1).map (· + 1)) := by
      simp only [processEntries]
      split_ifs <;> simp [processEntries_dels_shift l 1]
    have hupd : (updateEntry e).text = (clean_text defaultConfig e.text).1 := rfl
    by_cases hE : (clean_text defaultConfig e.text).1 = ""
    · rw [hdels, if_pos hE]
      show ((0 :: ((processEntries l 0).2.1).map (· + 1)).reverse).foldl delAt
          (updateEntry e :: l.map updateEntry) = _
      rw [List.reverse_cons, List.foldl_append, ← List.map_reverse, foldl_delAt_shift]
      rw [show (((processEntries l 0).2.1).reverse).foldl delAt (l.map updateEntry)
          = deleteReversed (l.map updateEntry) ((processEntries l 0).2.1) from rfl]
      rw [ih, List.map_cons, List.filter_cons]
      simp [hupd, hE, delAt]
    · rw [hdels, if_neg hE]
      show ((((processEntries l 0).2.1).map (· + 1)).reverse).foldl delAt
          (updateEntry e :: l.map updateEntry) = _
      rw [← List.map_reverse, foldl_delAt_shift]
      rw [show (((processEntries l 0).2.1).reverse).foldl delAt (l.map updateEntry)
          = deleteReversed (l.map updateEntry) ((processEntries l 0).2.1) from rfl]
      rw [ih, List.map_cons, List.filter_cons]
      simp [hupd, hE]

/-- C7: the document produced by `process_subtitle_file` consists of
exactly the entries whose cleaned text is nonempty, in their original
order, each with only the text field replaced by the cleaned text
(timestamps untouched). -/
theorem c7_delete_and_update (filename : String) (output_path : Option String)
    (subs : List SubRipItem) :
    (process_subtitle_file filename output_path subs).1
      = (subs.map updateEntry).filter (fun e => !(e.text == "")) := by
  have hkey : deleteReversed (processEntries subs 0).1 (processEntries subs 0).2.1
      = (subs.map updateEntry).filter (fun e => !(e.text == "")) := by
    rw [processEntries_fst]
    exact delete_filter subs
  cases output_path with
  | some p =>
    unfold process_subtitle_file
    split_ifs <;> exact hkey
  | none =>
    unfold process_subtitle_file
    split_ifs <;> exact hkey

/-- A document every entry of which the cleaner leaves untouched and
nonempty passes through the batch loop without marks, flags or events. -/
lemma processEntries_clean (l : List SubRipItem) (i : Nat)
    (h : ∀ e ∈ l, (clean_text defaultConfig e.text).1 = e.text ∧ e.text ≠ "") :
    processEntries l i = (l, [], false, []) := by
  induction l generalizing i with
  | nil => rfl
  | cons e l ih =>
    obtain ⟨h1, h2⟩ := h e (List.mem_cons_self _ _)
    have hrest := ih (i + 1) (fun x hx => h x (List.mem_cons_of_mem _ hx))
    have he : ({ e with text := (clean_text defaultConfig e.text).1 } : SubRipItem) = e := by
      rw [h1]
    simp only [processEntries]
    rw [if_neg (by rw [h1]; exact h2), if_neg (by rw [h1]; simp)]
    rw [hrest, he]

/-- C1 (amended): on a document with no modified and no emptied entries,
the processor reports `Already clean` in both output modes and writes no
file when an explicit output path is supplied; with the default destination
(`output_path` absent) it nevertheless renames the source and saves the
document back. -/
theorem c1_clean_document_behaviour (filename p : String) (subs : List SubRipItem)
    (h : ∀ e ∈ subs, (clean_text defaultConfig e.text).1 = e.text ∧ e.text ≠ "") :
    (process_subtitle_file filename (some p) subs).2.1 = false
    ∧ (process_subtitle_file filename (some p) subs).2.2
        = [.success ("Already clean file: " ++ filename)]
    ∧ (process_subtitle_file filename none subs).2.1 = false
    ∧ (process_subtitle_file filename none subs).2.2
        = [.renamed filename ("_" ++ filename), .saved filename,
           .success ("Already clean file: " ++ filename)] := by
  have hp := processEntries_clean subs 0 h
  unfold process_subtitle_file
  rw [hp]
  simp

/-- Witness for C1 (amended) on a concrete clean one-entry document. -/
theorem c1_witness :
    (process_subtitle_file "movie.srt" (some "out.srt") demoSubs).2.1 = false
    ∧ (process_subtitle_file "movie.srt" (some "out.srt") demoSubs).2.2
        = [.success ("Already clean file: " ++ "movie.srt")]
    ∧ (process_subtitle_file "movie.srt" none demoSubs).2.1 = false
    ∧ (process_subtitle_file "movie.srt" none demoSubs).2.2
        = [.renamed "movie.srt" ("_" ++ "movie.srt"), .saved "movie.srt",
           .success ("Already clean file: " ++ "movie.srt")] :=
  c1_clean_document_behaviour "movie.srt" "out.srt" demoSubs (by decide)

/-- C1 counterexample: a clean document (no entry modified, none emptied)
processed with the default destination (`output_path` absent) still
produces a save of the document, contrary to the claim that no output file
is written in that mode. -/
theorem c1_counterexample :
    (∀ e ∈ demoSubs, (clean_text defaultConfig e.text).1 = e.text ∧ e.text ≠ "")
    ∧ Event.saved "movie.srt" ∈ (process_subtitle_file "movie.srt" none demoSubs).2.2 := by
  decide

end Nocc
